import Mathlib

/-!
A shallow embedding of the killswitch reconciliation controller
(`db.py` and `app.py`) and proofs about its desired-state resolver,
mutation operations and reconciliation loop.

Modelling conventions:

* Absolute timestamps are natural numbers counting minutes since an
  epoch that falls on a Monday at 00:00.  Hence `t / 1440 % 7` is the
  weekday (0 = Monday, matching Python's `datetime.weekday()`) and
  `t % 1440` is the minute of the day.  The program stores timestamps
  as ISO text and compares them with SQL string comparison, which is
  chronological for a fixed format; the `Nat` order models that.
* SQLite TEXT values that the program compares lexicographically
  (the `"HH:MM"` schedule times) are modelled as `List Char`, compared
  by code point exactly as Python compares `str` values.
* Each Lean definition mirrors a function of `db.py` or `app.py` and
  carries its name.
-/

/-- TEXT values ("HH:MM" times and the like): Python strings compared
lexicographically by code point. -/
abbrev Str := List Char

/-- Lexicographic strict comparison on character lists, by code point:
Python's `<` on `str`. -/
def strLt : Str → Str → Bool
  | [], [] => false
  | [], _ :: _ => true
  | _ :: _, [] => false
  | a :: as, b :: bs => if a < b then true else if b < a then false else strLt as bs

/-- Python's `<=` on `str`: `a <= b` iff `not (b < a)` in a total order. -/
def strLe (a b : Str) : Bool := !(strLt b a)

/-- The decimal digit character for `n < 10`. -/
def digitChar (n : Nat) : Char := Char.ofNat (48 + n)

/-- Two-digit zero padding, as produced by `strftime("%H")` / `strftime("%M")`
for values below 100 (hours are below 24 and minutes below 60). -/
def pad2 (n : Nat) : Str := [digitChar (n / 10), digitChar (n % 10)]

/-- `now.strftime("%H:%M")` applied to minute-of-day `m`. -/
def fmtHM (m : Nat) : Str := pad2 (m / 60) ++ [':'] ++ pad2 (m % 60)

/-- Python's `str.split` on a single separator character. -/
def splitOnChar (c : Char) : List Char → List (List Char)
  | [] => [[]]
  | a :: as =>
    match splitOnChar c as with
    | [] => [[]]
    | g :: gs => if a = c then [] :: g :: gs else (a :: g) :: gs

/-- Value of a decimal digit string, as Python's `int` computes it on
well-formed input (the only inputs the program feeds it). -/
def digitsVal : List Char → Nat
  | [] => 0
  | c :: cs => (c.toNat - 48) * 10 ^ cs.length + digitsVal cs

/-- `hour, minute = map(int, schedule['start_time'].split(':'))` from
`get_next_schedule_start`.  On input that is not two `:`-separated
fields Python would raise; the model returns `(0, 0)` there. -/
def parseHM (s : Str) : Nat × Nat :=
  match splitOnChar ':' s with
  | [h, m] => (digitsVal h, digitsVal m)
  | _ => (0, 0)

/-- A row of the `devices` table. -/
structure Device where
  id : Nat
  «alias» : Str
  ip : Str
  username : Str
  password : Str
  port_id : Nat
  is_default : Bool
deriving DecidableEq, Repr

/-- A row of the `schedules` table. -/
structure Schedule where
  id : Nat
  device_id : Nat
  day_of_week : Nat
  start_time : Str
  end_time : Str
  enabled : Bool
deriving DecidableEq, Repr

/-- A row of the `temporary_access` table. -/
structure TemporaryAccess where
  id : Nat
  device_id : Nat
  granted_at : Nat
  expires_at : Nat
  active : Bool
deriving DecidableEq, Repr

/-- A row of the `punishment_mode` table. -/
structure PunishmentMode where
  id : Nat
  device_id : Nat
  activated_at : Nat
  expires_at : Nat
  active : Bool
deriving DecidableEq, Repr

/-- The SQLite database: the four tables plus the AUTOINCREMENT
counters that produce fresh primary keys. -/
structure Store where
  devices : List Device
  schedules : List Schedule
  temporary_access : List TemporaryAccess
  punishment_mode : List PunishmentMode
  next_device_id : Nat
  next_ta_id : Nat
  next_pm_id : Nat
deriving DecidableEq, Repr

/-- `db.get_schedules`: rows of `schedules` for the device with
`enabled = 1`.  The SQL `ORDER BY day_of_week, start_time` is dropped:
`should_port_be_enabled` only tests membership and
`get_next_schedule_start` re-sorts each day's rows by `start_time`, so
the stored order is unobservable to the functions modelled here. -/
def get_schedules (st : Store) (device_id : Nat) : List Schedule :=
  st.schedules.filter (fun s => s.device_id == device_id && s.enabled)

/-- `ORDER BY expires_at DESC LIMIT 1` over a filtered result: the
element with the greatest `expires_at` (first such element on ties). -/
def maxByExpiresTA : List TemporaryAccess → Option TemporaryAccess
  | [] => none
  | r :: rest =>
    match maxByExpiresTA rest with
    | none => some r
    | some b => if b.expires_at > r.expires_at then some b else some r

/-- `db.get_active_temporary_access`: the grant for the device with
`active = 1 AND expires_at > now`, greatest `expires_at` first. -/
def get_active_temporary_access (st : Store) (device_id : Nat) (now : Nat) :
    Option TemporaryAccess :=
  maxByExpiresTA (st.temporary_access.filter
    (fun r => r.device_id == device_id && r.active && now < r.expires_at))

/-- `ORDER BY expires_at DESC LIMIT 1` for `punishment_mode` rows. -/
def maxByExpiresPM : List PunishmentMode → Option PunishmentMode
  | [] => none
  | r :: rest =>
    match maxByExpiresPM rest with
    | none => some r
    | some b => if b.expires_at > r.expires_at then some b else some r

/-- `db.get_active_punishment_mode`: the punishment row for the device
with `active = 1 AND expires_at > now`, greatest `expires_at` first. -/
def get_active_punishment_mode (st : Store) (device_id : Nat) (now : Nat) :
    Option PunishmentMode :=
  maxByExpiresPM (st.punishment_mode.filter
    (fun r => r.device_id == device_id && r.active && now < r.expires_at))

/-- `db.should_port_be_enabled`: punishment mode first (disables), then
temporary access (enables), then the schedule check with fail-open
default when the device has no enabled schedules. -/
def should_port_be_enabled (st : Store) (device_id : Nat) (now : Nat) : Bool :=
  match get_active_punishment_mode st device_id now with
  | some _ => false
  | none =>
  match get_active_temporary_access st device_id now with
  | some _ => true
  | none =>
    let current_day := now / 1440 % 7
    let current_time := fmtHM (now % 1440)
    let schedules := get_schedules st device_id
    if schedules.isEmpty then true
    else schedules.any (fun s =>
      s.day_of_week == current_day &&
      strLe s.start_time current_time && strLe current_time s.end_time)

/-- `db.cleanup_expired_temporary_access` with `device_id=None` (the
variant the reconciliation loop calls): flip `active` to 0 on every
active row with `expires_at <= now`. -/
def cleanup_expired_temporary_access (st : Store) (now : Nat) : Store :=
  { st with temporary_access := st.temporary_access.map (fun r =>
      if r.active && r.expires_at ≤ now then { r with active := false } else r) }

/-- `db.cleanup_expired_punishment_mode` with `device_id=None`. -/
def cleanup_expired_punishment_mode (st : Store) (now : Nat) : Store :=
  { st with punishment_mode := st.punishment_mode.map (fun r =>
      if r.active && r.expires_at ≤ now then { r with active := false } else r) }

/-- `db.revoke_temporary_access`: deactivate every active grant of the
device. -/
def revoke_temporary_access (st : Store) (device_id : Nat) : Store :=
  { st with temporary_access := st.temporary_access.map (fun r =>
      if r.device_id == device_id && r.active then { r with active := false } else r) }

/-- `db.revoke_punishment_mode`: deactivate every active punishment row
of the device. -/
def revoke_punishment_mode (st : Store) (device_id : Nat) : Store :=
  { st with punishment_mode := st.punishment_mode.map (fun r =>
      if r.device_id == device_id && r.active then { r with active := false } else r) }

/-- The dictionary `db.grant_temporary_access` returns. -/
structure GrantResult where
  id : Nat
  granted_at : Nat
  expires_at : Nat
  extended : Bool
deriving DecidableEq, Repr

/-- `db.grant_temporary_access`: extend the active grant by adding the
duration to its current `expires_at`, or insert a fresh row expiring
`duration_minutes` after `now`. -/
def grant_temporary_access (st : Store) (duration_minutes : Nat) (device_id : Nat)
    (now : Nat) : GrantResult × Store :=
  match get_active_temporary_access st device_id now with
  | some existing =>
    let new_expires := existing.expires_at + duration_minutes
    ({ id := existing.id, granted_at := existing.granted_at,
       expires_at := new_expires, extended := true },
     { st with temporary_access := st.temporary_access.map (fun r =>
         if r.id == existing.id then { r with expires_at := new_expires } else r) })
  | none =>
    let expires_at := now + duration_minutes
    ({ id := st.next_ta_id, granted_at := now, expires_at := expires_at,
       extended := false },
     { st with
        temporary_access := st.temporary_access ++
          [{ id := st.next_ta_id, device_id := device_id, granted_at := now,
             expires_at := expires_at, active := true }],
        next_ta_id := st.next_ta_id + 1 })

/-- One step of `sorted(day_schedules, key=lambda x: x['start_time'])`:
insert after every element whose `start_time` is not greater, so a fold
over the list in stored order is the stable ascending sort. -/
def sortInsert (s : Schedule) : List Schedule → List Schedule
  | [] => [s]
  | t :: rest =>
    if strLt s.start_time t.start_time then s :: t :: rest
    else t :: sortInsert s rest

/-- `sorted(day_schedules, key=lambda x: x['start_time'])`. -/
def sortByStart (l : List Schedule) : List Schedule :=
  l.foldl (fun acc s => sortInsert s acc) []

/-- The inner loop of `get_next_schedule_start`: walk the sorted day
schedules, skipping (`continue`) those with `start_time <= current_time`
when `day_offset == 0`, and return the first remaining one. -/
def firstQualifying (day_offset : Nat) (current_time : Str) :
    List Schedule → Option Schedule
  | [] => none
  | s :: rest =>
    if day_offset == 0 && strLe s.start_time current_time then
      firstQualifying day_offset current_time rest
    else some s

/-- The `for day_offset in range(8)` scan of `get_next_schedule_start`,
with `fuel` counting the offsets still to try. -/
def scanOffsets (schedules : List Schedule) (now : Nat) :
    Nat → Nat → Option Nat
  | _, 0 => none
  | day_offset, fuel + 1 =>
    let current_day := now / 1440 % 7
    let current_time := fmtHM (now % 1440)
    let check_day := (current_day + day_offset) % 7
    let day_schedules := schedules.filter (fun s => s.day_of_week == check_day)
    match firstQualifying day_offset current_time (sortByStart day_schedules) with
    | some s =>
      let hm := parseHM s.start_time
      some ((now / 1440 + day_offset) * 1440 + hm.1 * 60 + hm.2)
    | none => scanOffsets schedules now (day_offset + 1) fuel

/-- `db.get_next_schedule_start`: `None` when the device has no enabled
schedules, else the first start found by the 8-day offset scan, as an
absolute timestamp (`now.date() + day_offset` at the parsed `"HH:MM"`). -/
def get_next_schedule_start (st : Store) (device_id : Nat) (now : Nat) : Option Nat :=
  let schedules := get_schedules st device_id
  if schedules.isEmpty then none
  else scanOffsets schedules now 0 8

/-- The dictionary `db.activate_punishment_mode` returns. -/
structure PunishResult where
  id : Nat
  activated_at : Nat
  expires_at : Nat
deriving DecidableEq, Repr

/-- `db.activate_punishment_mode`: `None` and no write when
`get_next_schedule_start` is `None`, else insert one punishment row
expiring at that next start. -/
def activate_punishment_mode (st : Store) (device_id : Nat) (now : Nat) :
    Option PunishResult × Store :=
  match get_next_schedule_start st device_id now with
  | none => (none, st)
  | some next_start =>
    (some { id := st.next_pm_id, activated_at := now, expires_at := next_start },
     { st with
        punishment_mode := st.punishment_mode ++
          [{ id := st.next_pm_id, device_id := device_id, activated_at := now,
             expires_at := next_start, active := true }],
        next_pm_id := st.next_pm_id + 1 })

/-- `db.add_device`: when the new device is to be the default, first
clear `is_default` on every row, then insert. -/
def add_device (st : Store) («alias» ip username password : Str) (port_id : Nat)
    (is_default : Bool) : Nat × Store :=
  let devices :=
    if is_default then st.devices.map (fun d => { d with is_default := false })
    else st.devices
  (st.next_device_id,
   { st with
      devices := devices ++
        [{ id := st.next_device_id, «alias» := «alias», ip := ip, username := username,
           password := password, port_id := port_id, is_default := is_default }],
      next_device_id := st.next_device_id + 1 })

/-- `db.update_device`: when the device is being made default, clear
`is_default` on every other row, then overwrite the row's fields. -/
def update_device (st : Store) (device_id : Nat) («alias» ip username password : Str)
    (port_id : Nat) (is_default : Bool) : Store :=
  let devices :=
    if is_default then
      st.devices.map (fun d => if d.id == device_id then d else { d with is_default := false })
    else st.devices
  { st with devices := devices.map (fun d =>
      if d.id == device_id then
        { d with «alias» := «alias», ip := ip, username := username, password := password,
                 port_id := port_id, is_default := is_default }
      else d) }

/-- `db.delete_device`: if the deleted device is the default, promote
the first other device (when one exists); then delete the row, and the
device's schedules, grants and punishment rows via `ON DELETE CASCADE`. -/
def delete_device (st : Store) (device_id : Nat) : Store :=
  let devices : List Device :=
    match st.devices.find? (fun d => d.id == device_id) with
    | some row =>
      if row.is_default then
        match st.devices.find? (fun d => d.id != device_id) with
        | some new_default =>
          st.devices.map (fun d =>
            if d.id == new_default.id then { d with is_default := true } else d)
        | none => st.devices
      else st.devices
    | none => st.devices
  { st with
      devices := devices.filter (fun d => d.id != device_id),
      schedules := st.schedules.filter (fun s => s.device_id != device_id),
      temporary_access := st.temporary_access.filter (fun r => r.device_id != device_id),
      punishment_mode := st.punishment_mode.filter (fun r => r.device_id != device_id) }

/-- Outcome of one convergence attempt against a physical switch:
`login_to_switch` raises, or `control_port` returns `False`, or both
steps succeed. -/
inductive DriverOutcome where
  | authError
  | setFailed
  | ok
deriving DecidableEq, Repr

/-- A command issued to a device: the login POST of `login_to_switch`
or the port-setting GET of `control_port`. -/
inductive DeviceCommand where
  | authenticate (device_id : Nat)
  | setState (device_id : Nat) (enabled : Bool)
deriving DecidableEq, Repr

/-- The module-level `port_states` dictionary of `app.py`, as a total
map: a device the dictionary does not mention reads as `False`, which is
exactly the value the code installs on first reference
(`port_states[dev_id] = {"enabled": False}`). -/
abbrev PortStates := Nat → Bool

/-- The per-device body of the loop in `app.sync_port_with_schedule`:
compare desired against observed, and when they differ attempt
login-then-set, updating the observed entry only on success.  The
driver raising or failing is caught by the per-device `except`. -/
def syncDevice (driver : Nat → DriverOutcome) (st : Store) (now : Nat)
    (states : PortStates) (device_id : Nat) : PortStates × List DeviceCommand :=
  let should_be_enabled := should_port_be_enabled st device_id now
  let current_state := states device_id
  if current_state == should_be_enabled then (states, [])
  else
    match driver device_id with
    | .authError => (states, [.authenticate device_id])
    | .setFailed =>
      (states, [.authenticate device_id, .setState device_id should_be_enabled])
    | .ok =>
      (fun d => if d == device_id then should_be_enabled else states d,
       [.authenticate device_id, .setState device_id should_be_enabled])

/-- The `for device in devices` sweep of `app.sync_port_with_schedule`,
collecting every command issued to any device. -/
def syncLoop (driver : Nat → DriverOutcome) (st : Store) (now : Nat) :
    List Device → PortStates → PortStates × List DeviceCommand
  | [], states => (states, [])
  | device :: rest, states =>
    let step := syncDevice driver st now states device.id
    let restR := syncLoop driver st now rest step.1
    (restR.1, step.2 ++ restR.2)

/-- `app.sync_port_with_schedule` with `device_id=None` (the periodic
tick): clean up expired grants and punishments store-wide, then sweep
every device.  Returns the store after cleanup, the new observed-state
map, and the trace of device commands issued. -/
def sync_port_with_schedule (driver : Nat → DriverOutcome) (st : Store) (now : Nat)
    (states : PortStates) : Store × PortStates × List DeviceCommand :=
  let st1 := cleanup_expired_temporary_access st now
  let st2 := cleanup_expired_punishment_mode st1 now
  let r := syncLoop driver st2 now st2.devices states
  (st2, r.1, r.2)

/-! Spec-side predicates and concrete fixtures used by the theorems. -/

/-- The spec's "active, unexpired TemporaryAccess record exists for the
device at `now`": the stored flag is set and `expires_at` is strictly in
the future. -/
abbrev ActiveUnexpiredTA (st : Store) (device_id now : Nat) : Prop :=
  ∃ r ∈ st.temporary_access,
    r.device_id = device_id ∧ r.active = true ∧ now < r.expires_at

/-- The spec's "active, unexpired PunishmentMode record exists for the
device at `now`". -/
abbrev ActiveUnexpiredPM (st : Store) (device_id now : Nat) : Prop :=
  ∃ r ∈ st.punishment_mode,
    r.device_id = device_id ∧ r.active = true ∧ now < r.expires_at

/-- Ordering of schedules by `start_time`, the sort key of
`get_next_schedule_start`: `a` may precede `b` when `b`'s start is not
strictly smaller. -/
abbrev leStart (a b : Schedule) : Prop := strLt b.start_time a.start_time = false

/-- The spec's qualification test for `NextScheduleStart`: `s` is one of
the device's enabled schedules, lies on the weekday reached `o` days
after `now`, and — for offset 0 (today) — starts strictly after `now`'s
time of day. -/
abbrev QualifiesAt (scheds : List Schedule) (now o : Nat) (s : Schedule) : Prop :=
  s ∈ scheds ∧ s.day_of_week = (now / 1440 % 7 + o) % 7 ∧
    (o = 0 → strLt (fmtHM (now % 1440)) s.start_time = true)

/-- The body of one `day_offset` iteration of `get_next_schedule_start`,
named so the scan can be peeled one offset at a time. -/
def tryOffset (schedules : List Schedule) (now day_offset : Nat) : Option Nat :=
  let current_day := now / 1440 % 7
  let current_time := fmtHM (now % 1440)
  let check_day := (current_day + day_offset) % 7
  let day_schedules := schedules.filter (fun s => s.day_of_week == check_day)
  match firstQualifying day_offset current_time (sortByStart day_schedules) with
  | some s =>
    let hm := parseHM s.start_time
    some ((now / 1440 + day_offset) * 1440 + hm.1 * 60 + hm.2)
  | none => none

/-- Number of rows of the `devices` table with `is_default = 1`. -/
def countDefaults (l : List Device) : Nat :=
  (l.filter (fun d => d.is_default)).length

/-- The data-model invariant: at most one device is the default. -/
abbrev AtMostOneDefault (st : Store) : Prop := countDefaults st.devices ≤ 1

/-- `id` is the PRIMARY KEY of `devices`: all ids are distinct. -/
abbrev DistinctIds (st : Store) : Prop := (st.devices.map Device.id).Nodup

/-- Fixture: a registered device with id 1 (the default). -/
def devA : Device :=
  { id := 1, «alias» := "A".data, ip := "ip1".data, username := "u".data,
    password := "p".data, port_id := 1, is_default := true }

/-- Fixture: a second registered device with id 2. -/
def devB : Device :=
  { id := 2, «alias» := "B".data, ip := "ip2".data, username := "u".data,
    password := "p".data, port_id := 2, is_default := false }

/-- Fixture: the spec's example schedule, Monday 09:00 to 17:00. -/
def monSched : Schedule :=
  { id := 1, device_id := 1, day_of_week := 0, start_time := "09:00".data,
    end_time := "17:00".data, enabled := true }

/-- Fixture: an unexpired active temporary-access grant for device 1. -/
def taActive : TemporaryAccess :=
  { id := 1, device_id := 1, granted_at := 0, expires_at := 1000, active := true }

/-- Fixture: an unexpired active punishment row for device 1. -/
def pmActive : PunishmentMode :=
  { id := 1, device_id := 1, activated_at := 0, expires_at := 900, active := true }

/-- Fixture: device 1 with only the Monday schedule and no overrides. -/
def storeMon : Store :=
  { devices := [devA], schedules := [monSched], temporary_access := [],
    punishment_mode := [], next_device_id := 2, next_ta_id := 2, next_pm_id := 2 }

/-- Fixture: device 1 with the Monday schedule and both overrides live. -/
def storeOverrides : Store :=
  { storeMon with temporary_access := [taActive], punishment_mode := [pmActive] }

/-- Fixture: device 1 with no schedules at all. -/
def storeNoSched : Store := { storeMon with schedules := [] }

/-- Fixture: two registered devices, device 1 the default. -/
def storeTwo : Store := { storeMon with devices := [devA, devB], next_device_id := 3 }

/-! Helper lemmas about the `ORDER BY expires_at DESC LIMIT 1` pick. -/

theorem maxByExpiresTA_eq_none {l : List TemporaryAccess} :
    maxByExpiresTA l = none ↔ l = [] := by
  cases l with
  | nil => simp [maxByExpiresTA]
  | cons r rest =>
    simp only [maxByExpiresTA]
    cases maxByExpiresTA rest with
    | none => simp
    | some b => by_cases h : b.expires_at > r.expires_at <;> simp [h]

theorem maxByExpiresTA_mem {l : List TemporaryAccess} {r : TemporaryAccess}
    (h : maxByExpiresTA l = some r) : r ∈ l := by
  induction l with
  | nil => simp [maxByExpiresTA] at h
  | cons a rest ih =>
    simp only [maxByExpiresTA] at h
    cases hm : maxByExpiresTA rest with
    | none => rw [hm] at h; simp at h; simp [h]
    | some b =>
      rw [hm] at h
      by_cases hgt : b.expires_at > a.expires_at
      · simp [hgt] at h; subst h
        exact List.mem_cons_of_mem a (ih hm)
      · simp [hgt] at h; simp [h]

theorem maxByExpiresTA_ge : ∀ {l : List TemporaryAccess} {r : TemporaryAccess},
    maxByExpiresTA l = some r → ∀ q ∈ l, q.expires_at ≤ r.expires_at
  | [], r, h => by simp [maxByExpiresTA] at h
  | a :: rest, r, h => by
    intro q hq
    simp only [maxByExpiresTA] at h
    cases hm : maxByExpiresTA rest with
    | none =>
      rw [hm] at h; simp at h; subst h
      rcases List.mem_cons.mp hq with hqa | hqr
      · subst hqa; exact Nat.le_refl _
      · exact absurd (maxByExpiresTA_eq_none.mp hm ▸ hqr) (List.not_mem_nil q)
    | some b =>
      rw [hm] at h
      by_cases hgt : b.expires_at > a.expires_at
      · simp [hgt] at h; subst h
        rcases List.mem_cons.mp hq with hqa | hqr
        · subst hqa; exact Nat.le_of_lt hgt
        · exact maxByExpiresTA_ge hm q hqr
      · simp [hgt] at h; subst h
        rcases List.mem_cons.mp hq with hqa | hqr
        · subst hqa; exact Nat.le_refl _
        · exact Nat.le_trans (maxByExpiresTA_ge hm q hqr) (Nat.le_of_not_lt hgt)

theorem maxByExpiresPM_eq_none {l : List PunishmentMode} :
    maxByExpiresPM l = none ↔ l = [] := by
  cases l with
  | nil => simp [maxByExpiresPM]
  | cons r rest =>
    simp only [maxByExpiresPM]
    cases maxByExpiresPM rest with
    | none => simp
    | some b => by_cases h : b.expires_at > r.expires_at <;> simp [h]

theorem maxByExpiresPM_mem {l : List PunishmentMode} {r : PunishmentMode}
    (h : maxByExpiresPM l = some r) : r ∈ l := by
  induction l with
  | nil => simp [maxByExpiresPM] at h
  | cons a rest ih =>
    simp only [maxByExpiresPM] at h
    cases hm : maxByExpiresPM rest with
    | none => rw [hm] at h; simp at h; simp [h]
    | some b =>
      rw [hm] at h
      by_cases hgt : b.expires_at > a.expires_at
      · simp [hgt] at h; subst h
        exact List.mem_cons_of_mem a (ih hm)
      · simp [hgt] at h; simp [h]

theorem maxByExpiresPM_ge : ∀ {l : List PunishmentMode} {r : PunishmentMode},
    maxByExpiresPM l = some r → ∀ q ∈ l, q.expires_at ≤ r.expires_at
  | [], r, h => by simp [maxByExpiresPM] at h
  | a :: rest, r, h => by
    intro q hq
    simp only [maxByExpiresPM] at h
    cases hm : maxByExpiresPM rest with
    | none =>
      rw [hm] at h; simp at h; subst h
      rcases List.mem_cons.mp hq with hqa | hqr
      · subst hqa; exact Nat.le_refl _
      · exact absurd (maxByExpiresPM_eq_none.mp hm ▸ hqr) (List.not_mem_nil q)
    | some b =>
      rw [hm] at h
      by_cases hgt : b.expires_at > a.expires_at
      · simp [hgt] at h; subst h
        rcases List.mem_cons.mp hq with hqa | hqr
        · subst hqa; exact Nat.le_of_lt hgt
        · exact maxByExpiresPM_ge hm q hqr
      · simp [hgt] at h; subst h
        rcases List.mem_cons.mp hq with hqa | hqr
        · subst hqa; exact Nat.le_refl _
        · exact Nat.le_trans (maxByExpiresPM_ge hm q hqr) (Nat.le_of_not_lt hgt)

/-! Bridging lemmas: the option returned by the resolvers versus the
spec-side "active, unexpired record exists" predicates. -/

theorem getActiveTA_isSome_iff {st : Store} {device_id now : Nat} :
    (get_active_temporary_access st device_id now).isSome ↔
      ActiveUnexpiredTA st device_id now := by
  unfold get_active_temporary_access ActiveUnexpiredTA
  rw [Option.isSome_iff_ne_none]
  constructor
  · intro h
    rcases Option.ne_none_iff_exists'.mp h with ⟨r, hr⟩
    have hm := maxByExpiresTA_mem hr
    rcases List.mem_filter.mp hm with ⟨hmem, hcond⟩
    simp only [Bool.and_eq_true, beq_iff_eq, decide_eq_true_eq] at hcond
    exact ⟨r, hmem, hcond.1.1, hcond.1.2, hcond.2⟩
  · intro ⟨r, hmem, hdev, hact, hexp⟩ hnone
    have : st.temporary_access.filter
        (fun r => r.device_id == device_id && r.active && decide (now < r.expires_at)) = [] :=
      maxByExpiresTA_eq_none.mp hnone
    have : r ∈ ([] : List TemporaryAccess) := by
      rw [← this]
      exact List.mem_filter.mpr ⟨hmem, by simp [hdev, hact, hexp]⟩
    exact List.not_mem_nil r this

theorem getActivePM_isSome_iff {st : Store} {device_id now : Nat} :
    (get_active_punishment_mode st device_id now).isSome ↔
      ActiveUnexpiredPM st device_id now := by
  unfold get_active_punishment_mode ActiveUnexpiredPM
  rw [Option.isSome_iff_ne_none]
  constructor
  · intro h
    rcases Option.ne_none_iff_exists'.mp h with ⟨r, hr⟩
    have hm := maxByExpiresPM_mem hr
    rcases List.mem_filter.mp hm with ⟨hmem, hcond⟩
    simp only [Bool.and_eq_true, beq_iff_eq, decide_eq_true_eq] at hcond
    exact ⟨r, hmem, hcond.1.1, hcond.1.2, hcond.2⟩
  · intro ⟨r, hmem, hdev, hact, hexp⟩ hnone
    have : st.punishment_mode.filter
        (fun r => r.device_id == device_id && r.active && decide (now < r.expires_at)) = [] :=
      maxByExpiresPM_eq_none.mp hnone
    have : r ∈ ([] : List PunishmentMode) := by
      rw [← this]
      exact List.mem_filter.mpr ⟨hmem, by simp [hdev, hact, hexp]⟩
    exact List.not_mem_nil r this

theorem getActiveTA_eq_none_iff {st : Store} {device_id now : Nat} :
    get_active_temporary_access st device_id now = none ↔
      ¬ ActiveUnexpiredTA st device_id now := by
  rw [← getActiveTA_isSome_iff, ← Option.not_isSome_iff_eq_none]

theorem getActivePM_eq_none_iff {st : Store} {device_id now : Nat} :
    get_active_punishment_mode st device_id now = none ↔
      ¬ ActiveUnexpiredPM st device_id now := by
  rw [← getActivePM_isSome_iff, ← Option.not_isSome_iff_eq_none]

/-- A congruence principle for the resolver: its value is determined by
the two active-override lookups and the device's enabled schedules. -/
theorem should_congr {st₁ st₂ : Store} {device_id now : Nat}
    (h1 : get_active_punishment_mode st₁ device_id now =
          get_active_punishment_mode st₂ device_id now)
    (h2 : get_active_temporary_access st₁ device_id now =
          get_active_temporary_access st₂ device_id now)
    (h3 : get_schedules st₁ device_id = get_schedules st₂ device_id) :
    should_port_be_enabled st₁ device_id now =
      should_port_be_enabled st₂ device_id now := by
  unfold should_port_be_enabled
  rw [h1, h2, h3]

/-- C1: the resolver's strict precedence, first match wins: an active,
unexpired punishment record forces `False` regardless of schedules or
temporary access, and otherwise an active, unexpired temporary-access
grant forces `True` regardless of schedules. -/
theorem C1_resolver_precedence (st : Store) (device_id now : Nat) :
    (ActiveUnexpiredPM st device_id now →
       should_port_be_enabled st device_id now = false) ∧
    (¬ ActiveUnexpiredPM st device_id now → ActiveUnexpiredTA st device_id now →
       should_port_be_enabled st device_id now = true) := by
  constructor
  · intro h
    rcases Option.isSome_iff_exists.mp (getActivePM_isSome_iff.mpr h) with ⟨r, hr⟩
    unfold should_port_be_enabled
    rw [hr]
  · intro hpm hta
    have h1 : get_active_punishment_mode st device_id now = none :=
      getActivePM_eq_none_iff.mpr hpm
    rcases Option.isSome_iff_exists.mp (getActiveTA_isSome_iff.mpr hta) with ⟨r, hr⟩
    unfold should_port_be_enabled
    rw [h1, hr]

/-- C1 witness: at Monday 10:00 device 1 with both overrides live
resolves to disabled even though a schedule window is open, and with
the punishment row gone the live grant resolves to enabled even at a
time no schedule covers. -/
theorem C1_resolver_precedence_witness :
    (ActiveUnexpiredPM storeOverrides 1 600 ∧
       should_port_be_enabled storeOverrides 1 600 = false) ∧
    (¬ ActiveUnexpiredPM { storeOverrides with punishment_mode := [] } 1 30 ∧
       ActiveUnexpiredTA { storeOverrides with punishment_mode := [] } 1 30 ∧
       should_port_be_enabled { storeOverrides with punishment_mode := [] } 1 30 = true) :=
  ⟨⟨by decide, (C1_resolver_precedence storeOverrides 1 600).1 (by decide)⟩,
   ⟨by decide, by decide,
    (C1_resolver_precedence { storeOverrides with punishment_mode := [] } 1 30).2
      (by decide) (by decide)⟩⟩

/-- C2: with no live override, the resolver fails open when the device
has zero enabled schedules, and otherwise is enabled exactly when some
enabled schedule row matches the current weekday with
`start_time ≤ now.time ≤ end_time` under lexicographic comparison,
closed on both ends. -/
theorem C2_schedule_evaluation (st : Store) (device_id now : Nat)
    (hpm : ¬ ActiveUnexpiredPM st device_id now)
    (hta : ¬ ActiveUnexpiredTA st device_id now) :
    (get_schedules st device_id = [] →
       should_port_be_enabled st device_id now = true) ∧
    (get_schedules st device_id ≠ [] →
      (should_port_be_enabled st device_id now = true ↔
        ∃ s ∈ st.schedules, s.device_id = device_id ∧ s.enabled = true ∧
          s.day_of_week = now / 1440 % 7 ∧
          strLe s.start_time (fmtHM (now % 1440)) = true ∧
          strLe (fmtHM (now % 1440)) s.end_time = true)) := by
  have h1 : get_active_punishment_mode st device_id now = none :=
    getActivePM_eq_none_iff.mpr hpm
  have h2 : get_active_temporary_access st device_id now = none :=
    getActiveTA_eq_none_iff.mpr hta
  constructor
  · intro hempty
    unfold should_port_be_enabled
    rw [h1, h2]
    simp [hempty]
  · intro hne
    unfold should_port_be_enabled
    rw [h1, h2]
    have hE : (get_schedules st device_id).isEmpty = false := by
      cases hE : (get_schedules st device_id).isEmpty
      · rfl
      · exact absurd (List.isEmpty_iff.mp hE) hne
    simp only [hE, Bool.false_eq_true, if_false, List.any_eq_true]
    constructor
    · intro ⟨s, hs, hp⟩
      rcases List.mem_filter.mp hs with ⟨hmem, hcond⟩
      simp only [Bool.and_eq_true, beq_iff_eq] at hcond hp
      exact ⟨s, hmem, hcond.1, hcond.2, hp.1.1, hp.1.2, hp.2⟩
    · intro ⟨s, hmem, hdev, hen, hday, hle1, hle2⟩
      refine ⟨s, List.mem_filter.mpr ⟨hmem, ?_⟩, ?_⟩
      · simp [hdev, hen]
      · simp [hday, hle1, hle2]

/-- C2 witness: device 1 with the Monday 09:00
to 17:00 schedule and no overrides, queried at Monday 10:00 (inside,
enabled via the matching row) and with no schedules at Monday 10:00
(fail-open). -/
theorem C2_schedule_evaluation_witness :
    (¬ ActiveUnexpiredPM storeNoSched 1 600 ∧ ¬ ActiveUnexpiredTA storeNoSched 1 600 ∧
       get_schedules storeNoSched 1 = [] ∧
       should_port_be_enabled storeNoSched 1 600 = true) ∧
    (¬ ActiveUnexpiredPM storeMon 1 600 ∧ ¬ ActiveUnexpiredTA storeMon 1 600 ∧
       get_schedules storeMon 1 ≠ [] ∧
       (should_port_be_enabled storeMon 1 600 = true ↔
         ∃ s ∈ storeMon.schedules, s.device_id = 1 ∧ s.enabled = true ∧
           s.day_of_week = 600 / 1440 % 7 ∧
           strLe s.start_time (fmtHM (600 % 1440)) = true ∧
           strLe (fmtHM (600 % 1440)) s.end_time = true)) :=
  ⟨⟨by decide, by decide, by decide,
    (C2_schedule_evaluation storeNoSched 1 600 (by decide) (by decide)).1 (by decide)⟩,
   ⟨by decide, by decide, by decide,
    (C2_schedule_evaluation storeMon 1 600 (by decide) (by decide)).2 (by decide)⟩⟩

/-- C3: both resolvers re-check `expires_at > now` on top of the stored
`active` flag, so a row whose `active` flag lags after expiry is never
returned, and inserting such a row changes nothing about the resolved
desired state. -/
theorem C3_lagging_flag_ignored (st : Store) (device_id now : Nat) :
    (∀ r, get_active_temporary_access st device_id now = some r →
       r.active = true ∧ now < r.expires_at) ∧
    (∀ r, get_active_punishment_mode st device_id now = some r →
       r.active = true ∧ now < r.expires_at) ∧
    (∀ r : TemporaryAccess, r.expires_at ≤ now →
       should_port_be_enabled { st with temporary_access := r :: st.temporary_access }
         device_id now = should_port_be_enabled st device_id now) ∧
    (∀ r : PunishmentMode, r.expires_at ≤ now →
       should_port_be_enabled { st with punishment_mode := r :: st.punishment_mode }
         device_id now = should_port_be_enabled st device_id now) := by
  refine ⟨?_, ?_, ?_, ?_⟩
  · intro r hr
    rcases List.mem_filter.mp (maxByExpiresTA_mem hr) with ⟨_, hcond⟩
    simp only [Bool.and_eq_true, beq_iff_eq, decide_eq_true_eq] at hcond
    exact ⟨hcond.1.2, hcond.2⟩
  · intro r hr
    rcases List.mem_filter.mp (maxByExpiresPM_mem hr) with ⟨_, hcond⟩
    simp only [Bool.and_eq_true, beq_iff_eq, decide_eq_true_eq] at hcond
    exact ⟨hcond.1.2, hcond.2⟩
  · intro r hle
    refine should_congr rfl ?_ rfl
    unfold get_active_temporary_access
    have : (r.device_id == device_id && r.active && decide (now < r.expires_at)) = false := by
      simp [Nat.not_lt.mpr hle]
    simp [List.filter_cons, this]
  · intro r hle
    refine should_congr ?_ rfl rfl
    unfold get_active_punishment_mode
    have : (r.device_id == device_id && r.active && decide (now < r.expires_at)) = false := by
      simp [Nat.not_lt.mpr hle]
    simp [List.filter_cons, this]

/-- C3 witness: at Monday 10:00, an expired-but-still-active grant and
punishment row are not returned and do not flip device 1's resolved
state, and the returned overrides of `storeOverrides` are live. -/
theorem C3_lagging_flag_ignored_witness :
    ({ taActive with expires_at := 600 }.expires_at ≤ 600 ∧
      should_port_be_enabled
        { storeMon with temporary_access := { taActive with expires_at := 600 } :: storeMon.temporary_access }
        1 600 = should_port_be_enabled storeMon 1 600) ∧
    ({ pmActive with expires_at := 599 }.expires_at ≤ 600 ∧
      should_port_be_enabled
        { storeMon with punishment_mode := { pmActive with expires_at := 599 } :: storeMon.punishment_mode }
        1 600 = should_port_be_enabled storeMon 1 600) ∧
    (get_active_punishment_mode storeOverrides 1 600 = some pmActive ∧
      pmActive.active = true ∧ 600 < pmActive.expires_at) :=
  ⟨⟨by decide, (C3_lagging_flag_ignored storeMon 1 600).2.2.1 _ (by decide)⟩,
   ⟨by decide, (C3_lagging_flag_ignored storeMon 1 600).2.2.2 _ (by decide)⟩,
   ⟨by decide, (C3_lagging_flag_ignored storeOverrides 1 600).2.1 pmActive (by decide)⟩⟩

/-- C5: granting while a grant is active extends that row's expiry by
the duration from the existing `expires_at` (not from `now`) and reports
`extended`, inserting nothing; granting with none active inserts one row
granted now and expiring `now + duration`, reporting not extended. -/
theorem C5_grant_semantics (st : Store) (duration_minutes device_id now : Nat) :
    (∀ ex, get_active_temporary_access st device_id now = some ex →
       (grant_temporary_access st duration_minutes device_id now).1.extended = true ∧
       (grant_temporary_access st duration_minutes device_id now).1.expires_at =
         ex.expires_at + duration_minutes ∧
       (grant_temporary_access st duration_minutes device_id now).2.temporary_access =
         st.temporary_access.map (fun r =>
           if r.id == ex.id then { r with expires_at := ex.expires_at + duration_minutes }
           else r) ∧
       (grant_temporary_access st duration_minutes device_id now).2.temporary_access.length =
         st.temporary_access.length) ∧
    (get_active_temporary_access st device_id now = none →
       (grant_temporary_access st duration_minutes device_id now).1.extended = false ∧
       (grant_temporary_access st duration_minutes device_id now).1.granted_at = now ∧
       (grant_temporary_access st duration_minutes device_id now).1.expires_at =
         now + duration_minutes ∧
       (grant_temporary_access st duration_minutes device_id now).2.temporary_access =
         st.temporary_access ++
           [{ id := st.next_ta_id, device_id := device_id, granted_at := now,
              expires_at := now + duration_minutes, active := true }]) := by
  constructor
  · intro ex hex
    unfold grant_temporary_access
    rw [hex]
    exact ⟨rfl, rfl, rfl, List.length_map _ _⟩
  · intro hnone
    unfold grant_temporary_access
    rw [hnone]
    exact ⟨rfl, rfl, rfl, rfl⟩

/-- C5 witness: at minute 603 with a live grant expiring at minute 1000,
granting 5 more minutes yields expiry 1005 (existing plus 5, not
`now + 5 = 608`); with no live grant the new row expires at 608. -/
theorem C5_grant_semantics_witness :
    (get_active_temporary_access storeOverrides 1 603 = some taActive ∧
       (grant_temporary_access storeOverrides 5 1 603).1.extended = true ∧
       (grant_temporary_access storeOverrides 5 1 603).1.expires_at = 1005 ∧
       (grant_temporary_access storeOverrides 5 1 603).2.temporary_access.length =
         storeOverrides.temporary_access.length) ∧
    (get_active_temporary_access storeMon 1 603 = none ∧
       (grant_temporary_access storeMon 5 1 603).1.extended = false ∧
       (grant_temporary_access storeMon 5 1 603).1.expires_at = 608 ∧
       (grant_temporary_access storeMon 5 1 603).2.temporary_access =
         storeMon.temporary_access ++
           [{ id := storeMon.next_ta_id, device_id := 1, granted_at := 603,
              expires_at := 608, active := true }]) :=
  ⟨⟨by decide,
    ((C5_grant_semantics storeOverrides 5 1 603).1 taActive (by decide)).1,
    ((C5_grant_semantics storeOverrides 5 1 603).1 taActive (by decide)).2.1,
    ((C5_grant_semantics storeOverrides 5 1 603).1 taActive (by decide)).2.2.2⟩,
   ⟨by decide,
    ((C5_grant_semantics storeMon 5 1 603).2 (by decide)).1,
    ((C5_grant_semantics storeMon 5 1 603).2 (by decide)).2.2.1,
    ((C5_grant_semantics storeMon 5 1 603).2 (by decide)).2.2.2⟩⟩

/-- C6: activating punishment mode fails with the no-schedules signal
(`None`) and leaves the store untouched when no next schedule start
exists; otherwise it inserts exactly one punishment row whose
`expires_at` is that next schedule-window start. -/
theorem C6_activate_no_schedules (st : Store) (device_id now : Nat) :
    (get_next_schedule_start st device_id now = none →
       activate_punishment_mode st device_id now = (none, st)) ∧
    (∀ t, get_next_schedule_start st device_id now = some t →
       (activate_punishment_mode st device_id now).1 =
         some { id := st.next_pm_id, activated_at := now, expires_at := t } ∧
       (activate_punishment_mode st device_id now).2.punishment_mode =
         st.punishment_mode ++
           [{ id := st.next_pm_id, device_id := device_id, activated_at := now,
              expires_at := t, active := true }] ∧
       (activate_punishment_mode st device_id now).2.devices = st.devices ∧
       (activate_punishment_mode st device_id now).2.schedules = st.schedules ∧
       (activate_punishment_mode st device_id now).2.temporary_access =
         st.temporary_access) := by
  constructor
  · intro hnone
    unfold activate_punishment_mode
    rw [hnone]
  · intro t ht
    unfold activate_punishment_mode
    rw [ht]
    exact ⟨rfl, rfl, rfl, rfl, rfl⟩

/-- C6 witness: device 1 with no schedules fails and leaves the store
unchanged; with the Monday schedule at Monday 10:00 it inserts the one
row expiring at the next start, minute 10620. -/
theorem C6_activate_no_schedules_witness :
    (get_next_schedule_start storeNoSched 1 600 = none ∧
       activate_punishment_mode storeNoSched 1 600 = (none, storeNoSched)) ∧
    (get_next_schedule_start storeMon 1 600 = some 10620 ∧
       (activate_punishment_mode storeMon 1 600).1 =
         some { id := storeMon.next_pm_id, activated_at := 600, expires_at := 10620 } ∧
       (activate_punishment_mode storeMon 1 600).2.punishment_mode =
         storeMon.punishment_mode ++
           [{ id := storeMon.next_pm_id, device_id := 1, activated_at := 600,
              expires_at := 10620, active := true }]) :=
  ⟨⟨by decide, (C6_activate_no_schedules storeNoSched 1 600).1 (by decide)⟩,
   ⟨by decide,
    ((C6_activate_no_schedules storeMon 1 600).2 10620 (by decide)).1,
    ((C6_activate_no_schedules storeMon 1 600).2 10620 (by decide)).2.1⟩⟩

/-- C10: activating while a punishment row is already live appends a
second concurrent row rather than extending; the resolver then returns
a live row with the greatest `expires_at`; and one revoke call
deactivates every active punishment row of the device at once without
deleting any. -/
theorem C10_concurrent_punishment (st : Store) (device_id now : Nat) :
    (ActiveUnexpiredPM st device_id now →
       ∀ t, get_next_schedule_start st device_id now = some t →
         (activate_punishment_mode st device_id now).2.punishment_mode =
           st.punishment_mode ++
             [{ id := st.next_pm_id, device_id := device_id, activated_at := now,
                expires_at := t, active := true }]) ∧
    (∀ r, get_active_punishment_mode st device_id now = some r →
       r ∈ st.punishment_mode ∧ r.device_id = device_id ∧ r.active = true ∧
         now < r.expires_at ∧
         ∀ q ∈ st.punishment_mode, q.device_id = device_id → q.active = true →
           now < q.expires_at → q.expires_at ≤ r.expires_at) ∧
    (∀ r ∈ (revoke_punishment_mode st device_id).punishment_mode,
        r.device_id = device_id → r.active = false) ∧
    ((revoke_punishment_mode st device_id).punishment_mode.length =
        st.punishment_mode.length) := by
  refine ⟨?_, ?_, ?_, ?_⟩
  · intro _ t ht
    unfold activate_punishment_mode
    rw [ht]
  · intro r hr
    rcases List.mem_filter.mp (maxByExpiresPM_mem hr) with ⟨hmem, hcond⟩
    simp only [Bool.and_eq_true, beq_iff_eq, decide_eq_true_eq] at hcond
    refine ⟨hmem, hcond.1.1, hcond.1.2, hcond.2, ?_⟩
    intro q hq hdev hact hexp
    exact maxByExpiresPM_ge hr q
      (List.mem_filter.mpr ⟨hq, by simp [hdev, hact, hexp]⟩)
  · intro r hr hdev
    rcases List.mem_map.mp hr with ⟨a, _, hfa⟩
    by_cases hc : (a.device_id == device_id && a.active) = true
    · rw [if_pos hc] at hfa
      rw [← hfa]
    · rw [if_neg (by simpa using hc)] at hfa
      subst hfa
      cases hA : a.active
      · rfl
      · simp [hdev, hA] at hc
  · exact (List.length_map _ _).symm ▸ List.length_map _ _

/-- C10 witness: with `pmActive` live at minute 600 and the Monday
schedule, activation appends a second concurrent row, the resolver
returns `pmActive`, and revoking flips it inactive in place. -/
theorem C10_concurrent_punishment_witness :
    (ActiveUnexpiredPM storeOverrides 1 600 ∧
       get_next_schedule_start storeOverrides 1 600 = some 10620 ∧
       (activate_punishment_mode storeOverrides 1 600).2.punishment_mode =
         storeOverrides.punishment_mode ++
           [{ id := storeOverrides.next_pm_id, device_id := 1, activated_at := 600,
              expires_at := 10620, active := true }]) ∧
    (get_active_punishment_mode storeOverrides 1 600 = some pmActive ∧
       pmActive ∈ storeOverrides.punishment_mode ∧ pmActive.active = true) ∧
    ({ pmActive with active := false } ∈
        (revoke_punishment_mode storeOverrides 1).punishment_mode ∧
       ({ pmActive with active := false } : PunishmentMode).device_id = 1 ∧
       ({ pmActive with active := false } : PunishmentMode).active = false) :=
  ⟨⟨by decide, by decide,
    (C10_concurrent_punishment storeOverrides 1 600).1 (by decide) 10620 (by decide)⟩,
   ⟨by decide,
    ((C10_concurrent_punishment storeOverrides 1 600).2.1 pmActive (by decide)).1,
    ((C10_concurrent_punishment storeOverrides 1 600).2.1 pmActive (by decide)).2.2.1⟩,
   ⟨by decide, by decide,
    (C10_concurrent_punishment storeOverrides 1 600).2.2.1
      { pmActive with active := false } (by decide) (by decide)⟩⟩

/-! Lemmas on the per-device convergence step and the sweep. -/

theorem syncDevice_apply_ne (driver : Nat → DriverOutcome) (st : Store) (now : Nat)
    (states : PortStates) (i x : Nat) (hx : x ≠ i) :
    (syncDevice driver st now states i).1 x = states x := by
  simp only [syncDevice]
  by_cases hc : (states i == should_port_be_enabled st i now) = true
  · rw [if_pos hc]
  · rw [if_neg hc]
    cases hd : driver i
    · rfl
    · rfl
    · simp [hx]

theorem syncDevice_fst_of_fail (driver : Nat → DriverOutcome) (st : Store) (now : Nat)
    (states : PortStates) (i : Nat) (h : driver i ≠ DriverOutcome.ok) :
    (syncDevice driver st now states i).1 = states := by
  simp only [syncDevice]
  by_cases hc : (states i == should_port_be_enabled st i now) = true
  · rw [if_pos hc]
  · rw [if_neg hc]
    cases hd : driver i
    · rfl
    · rfl
    · exact absurd hd h

theorem syncDevice_converged (driver : Nat → DriverOutcome) (st : Store) (now : Nat)
    (states : PortStates) (i : Nat)
    (h : states i = should_port_be_enabled st i now) :
    syncDevice driver st now states i = (states, []) := by
  unfold syncDevice
  rw [if_pos (by simp [h])]

theorem syncDevice_ok_self (driver : Nat → DriverOutcome) (st : Store) (now : Nat)
    (states : PortStates) (i : Nat) (h : driver i = DriverOutcome.ok) :
    (syncDevice driver st now states i).1 i = should_port_be_enabled st i now := by
  unfold syncDevice
  by_cases hc : states i = should_port_be_enabled st i now
  · rw [if_pos (by simp [hc])]
    exact hc
  · rw [if_neg (by simp [hc]), h]
    simp

theorem syncLoop_fst_of_fail (driver : Nat → DriverOutcome) (st : Store) (now : Nat)
    (d : Nat) (h : driver d ≠ DriverOutcome.ok) :
    ∀ (l : List Device) (states : PortStates),
      (syncLoop driver st now l states).1 d = states d := by
  intro l
  induction l with
  | nil => intro states; rfl
  | cons dev rest ih =>
    intro states
    unfold syncLoop
    rw [ih]
    by_cases hid : d = dev.id
    · rw [hid, syncDevice_fst_of_fail driver st now states dev.id (hid ▸ h)]
    · exact syncDevice_apply_ne driver st now states dev.id d hid

theorem syncDevice_apply_self_congr (driver₁ driver₂ : Nat → DriverOutcome)
    (st : Store) (now : Nat) (states₁ states₂ : PortStates) (i : Nat)
    (hs : states₁ i = states₂ i) (hd : driver₁ i = driver₂ i) :
    (syncDevice driver₁ st now states₁ i).1 i =
      (syncDevice driver₂ st now states₂ i).1 i := by
  by_cases hc : states₂ i = should_port_be_enabled st i now
  · rw [syncDevice_converged driver₁ st now states₁ i (hs.trans hc),
        syncDevice_converged driver₂ st now states₂ i hc]
    exact hs
  · unfold syncDevice
    rw [if_neg (by simp [hs ▸ hc]), if_neg (by simp [hc]), hd]
    cases driver₂ i
    · exact hs
    · exact hs
    · simp

theorem syncLoop_agree (driver₁ driver₂ : Nat → DriverOutcome) (st : Store) (now : Nat)
    (d : Nat) (hdr : ∀ y, y ≠ d → driver₁ y = driver₂ y) :
    ∀ (l : List Device) (states₁ states₂ : PortStates),
      (∀ y, y ≠ d → states₁ y = states₂ y) →
      ∀ x, x ≠ d →
        (syncLoop driver₁ st now l states₁).1 x = (syncLoop driver₂ st now l states₂).1 x := by
  intro l
  induction l with
  | nil => intro states₁ states₂ hag x hx; exact hag x hx
  | cons dev rest ih =>
    intro states₁ states₂ hag x hx
    unfold syncLoop
    refine ih _ _ ?_ x hx
    intro y hy
    by_cases hyd : y = dev.id
    · subst hyd
      by_cases hdd : dev.id = d
      · exact absurd hdd hy
      · exact syncDevice_apply_self_congr driver₁ driver₂ st now states₁ states₂ dev.id
          (hag dev.id hdd) (hdr dev.id hdd)
    · rw [syncDevice_apply_ne driver₁ st now states₁ dev.id y hyd,
          syncDevice_apply_ne driver₂ st now states₂ dev.id y hyd]
      exact hag y hy

/-- C7: when the driver fails for a device (authentication raises or
set-state reports failure), that device's observed-state entry is left
unchanged by the tick, and every other device is processed exactly as
it would have been had the failing device converged — the sweep is not
aborted by one device's failure. -/
theorem C7_partial_failure_isolated (driver : Nat → DriverOutcome) (st : Store)
    (now : Nat) (states : PortStates) (d : Nat)
    (hfail : driver d ≠ DriverOutcome.ok) :
    ((sync_port_with_schedule driver st now states).2.1 d = states d) ∧
    (∀ x, x ≠ d →
       (sync_port_with_schedule driver st now states).2.1 x =
       (sync_port_with_schedule (fun y => if y = d then DriverOutcome.ok else driver y)
          st now states).2.1 x) := by
  constructor
  · exact syncLoop_fst_of_fail driver _ now d hfail _ states
  · intro x hx
    exact syncLoop_agree driver (fun y => if y = d then DriverOutcome.ok else driver y)
      _ now d (fun y hy => by simp [hy]) _ states states (fun _ _ => rfl) x hx

/-- C7 witness: device 1 (desired enabled, observed disabled, driver
auth-failing) keeps its observed entry, and an unrelated device id 2 is
converged identically whether device 1 failed or succeeded. -/
theorem C7_partial_failure_isolated_witness :
    ((fun _ : Nat => DriverOutcome.authError) 1 ≠ DriverOutcome.ok ∧
      (sync_port_with_schedule (fun _ => DriverOutcome.authError) storeNoSched 0
         (fun _ => false)).2.1 1 = (fun _ : Nat => false) 1) ∧
    ((2 : Nat) ≠ 1 ∧
      (sync_port_with_schedule (fun _ => DriverOutcome.authError) storeNoSched 0
         (fun _ => false)).2.1 2 =
      (sync_port_with_schedule (fun y => if y = 1 then DriverOutcome.ok else DriverOutcome.authError)
         storeNoSched 0 (fun _ => false)).2.1 2) :=
  ⟨⟨by decide,
    (C7_partial_failure_isolated (fun _ => DriverOutcome.authError) storeNoSched 0
      (fun _ => false) 1 (by decide)).1⟩,
   ⟨by decide,
    (C7_partial_failure_isolated (fun _ => DriverOutcome.authError) storeNoSched 0
      (fun _ => false) 1 (by decide)).2 2 (by decide)⟩⟩

/-! Lemmas for the idempotence analysis of the tick. -/

theorem cleanupTA_idem (st : Store) (now : Nat) :
    cleanup_expired_temporary_access (cleanup_expired_temporary_access st now) now =
      cleanup_expired_temporary_access st now := by
  simp only [cleanup_expired_temporary_access, List.map_map]
  congr 1
  apply List.map_congr_left
  intro r _
  simp only [Function.comp_apply]
  by_cases h : (r.active && decide (r.expires_at ≤ now)) = true
  · rw [if_pos h]
    simp
  · rw [if_neg h, if_neg h]

theorem cleanupPM_idem (st : Store) (now : Nat) :
    cleanup_expired_punishment_mode (cleanup_expired_punishment_mode st now) now =
      cleanup_expired_punishment_mode st now := by
  simp only [cleanup_expired_punishment_mode, List.map_map]
  congr 1
  apply List.map_congr_left
  intro r _
  simp only [Function.comp_apply]
  by_cases h : (r.active && decide (r.expires_at ≤ now)) = true
  · rw [if_pos h]
    simp
  · rw [if_neg h, if_neg h]

theorem cleanupTA_PM_comm (st : Store) (now : Nat) :
    cleanup_expired_temporary_access (cleanup_expired_punishment_mode st now) now =
      cleanup_expired_punishment_mode (cleanup_expired_temporary_access st now) now := rfl

theorem syncLoop_preserves (driver : Nat → DriverOutcome) (st : Store) (now : Nat) :
    ∀ (l : List Device) (states : PortStates) (x : Nat),
      states x = should_port_be_enabled st x now →
      (syncLoop driver st now l states).1 x = should_port_be_enabled st x now := by
  intro l
  induction l with
  | nil => intro states x hx; exact hx
  | cons dev rest ih =>
    intro states x hx
    unfold syncLoop
    apply ih
    by_cases hid : x = dev.id
    · subst hid
      rw [syncDevice_converged driver st now states dev.id hx]
      exact hx
    · rw [syncDevice_apply_ne driver st now states dev.id x hid]
      exact hx

theorem syncLoop_ok_converges (driver : Nat → DriverOutcome) (st : Store) (now : Nat)
    (hok : ∀ i, driver i = DriverOutcome.ok) :
    ∀ (l : List Device) (states : PortStates) (e : Device), e ∈ l →
      (syncLoop driver st now l states).1 e.id =
        should_port_be_enabled st e.id now := by
  intro l
  induction l with
  | nil => intro states e he; exact absurd he (List.not_mem_nil e)
  | cons dev rest ih =>
    intro states e he
    rcases List.mem_cons.mp he with hhd | htl
    · subst hhd
      unfold syncLoop
      apply syncLoop_preserves
      exact syncDevice_ok_self driver st now states e.id (hok e.id)
    · unfold syncLoop
      exact ih _ e htl

theorem syncLoop_no_commands (driver : Nat → DriverOutcome) (st : Store) (now : Nat) :
    ∀ (l : List Device) (states : PortStates),
      (∀ e ∈ l, states e.id = should_port_be_enabled st e.id now) →
      (syncLoop driver st now l states).2 = [] := by
  intro l
  induction l with
  | nil => intro states _; rfl
  | cons dev rest ih =>
    intro states hconv
    unfold syncLoop
    rw [syncDevice_converged driver st now states dev.id (hconv dev (List.mem_cons_self dev rest))]
    exact ih states (fun e he => hconv e (List.mem_cons_of_mem dev he))

/-- C8 counterexample: device 1 with no schedules (so desired is the
fail-open `True`), observed `False`, and a switch whose login always
fails.  The first tick changes neither the store nor the observed map,
yet the second tick again issues an authenticate command, so the claim
that the second run issues zero device commands fails. -/
theorem C8_counterexample :
    ((sync_port_with_schedule (fun _ => DriverOutcome.authError) storeNoSched 0
        (fun _ => false)).1 = storeNoSched) ∧
    ((sync_port_with_schedule (fun _ => DriverOutcome.authError) storeNoSched 0
        (fun _ => false)).2.1 1 = false) ∧
    ((sync_port_with_schedule (fun _ => DriverOutcome.authError)
        ((sync_port_with_schedule (fun _ => DriverOutcome.authError) storeNoSched 0
           (fun _ => false)).1) 0
        ((sync_port_with_schedule (fun _ => DriverOutcome.authError) storeNoSched 0
           (fun _ => false)).2.1)).2.2 = [DeviceCommand.authenticate 1]) ∧
    ((sync_port_with_schedule (fun _ => DriverOutcome.authError)
        ((sync_port_with_schedule (fun _ => DriverOutcome.authError) storeNoSched 0
           (fun _ => false)).1) 0
        ((sync_port_with_schedule (fun _ => DriverOutcome.authError) storeNoSched 0
           (fun _ => false)).2.1)).2.2 ≠ []) :=
  ⟨rfl, rfl, rfl, by decide⟩

/-- C8 (amended): when every attempted convergence succeeds — the
driver authenticates and sets state successfully on every device — a
second tick run from the first tick's resulting store and observed map
issues zero device commands.  (When a convergence attempt fails, the
code deliberately leaves the observed entry stale so the next tick
retries, issuing commands again.) -/
theorem C8_tick_idempotent (driver : Nat → DriverOutcome) (st : Store) (now : Nat)
    (states : PortStates) (hok : ∀ i, driver i = DriverOutcome.ok) :
    (sync_port_with_schedule driver
        (sync_port_with_schedule driver st now states).1 now
        (sync_port_with_schedule driver st now states).2.1).2.2 = [] := by
  simp only [sync_port_with_schedule]
  rw [cleanupTA_PM_comm, cleanupPM_idem, cleanupTA_idem]
  apply syncLoop_no_commands
  intro e he
  exact syncLoop_ok_converges driver _ now hok _ states e he

/-- C8 amended-claim witness: the always-succeeding driver on the
no-schedule store issues the one convergence command on the first tick
and none on the second. -/
theorem C8_tick_idempotent_witness :
    (∀ i : Nat, (fun _ => DriverOutcome.ok) i = DriverOutcome.ok) ∧
    (sync_port_with_schedule (fun _ => DriverOutcome.ok)
        (sync_port_with_schedule (fun _ => DriverOutcome.ok) storeNoSched 0
           (fun _ => false)).1 0
        (sync_port_with_schedule (fun _ => DriverOutcome.ok) storeNoSched 0
           (fun _ => false)).2.1).2.2 = [] :=
  ⟨fun _ => rfl,
   C8_tick_idempotent (fun _ => DriverOutcome.ok) storeNoSched 0 (fun _ => false)
     (fun _ => rfl)⟩

/-! Counting lemmas for the default-device invariant. -/

theorem countDefaults_append (l m : List Device) :
    countDefaults (l ++ m) = countDefaults l + countDefaults m := by
  simp [countDefaults, List.filter_append]

theorem countDefaults_map (l : List Device) (g : Device → Device) (p : Device → Bool)
    (h : ∀ d ∈ l, (g d).is_default = p d) :
    countDefaults (l.map g) = (l.filter p).length := by
  rw [countDefaults, List.filter_map, List.length_map]
  congr 1
  exact List.filter_congr (fun d hd => by simpa using h d hd)

theorem length_filter_le_of_imp {α : Type} (p q : α → Bool) (l : List α)
    (h : ∀ a ∈ l, p a = true → q a = true) :
    (l.filter p).length ≤ (l.filter q).length := by
  induction l with
  | nil => exact Nat.le_refl 0
  | cons a t ih =>
    rw [List.filter_cons, List.filter_cons]
    have hrest := ih (fun x hx => h x (List.mem_cons_of_mem a hx))
    by_cases hp : p a = true
    · rw [if_pos hp, if_pos (h a (List.mem_cons_self a t) hp)]
      simpa using hrest
    · rw [if_neg hp]
      by_cases hq : q a = true
      · rw [if_pos hq]
        exact Nat.le_trans hrest (Nat.le_succ _)
      · rw [if_neg hq]
        exact hrest

theorem countDefaults_filter_le (l : List Device) (q : Device → Bool) :
    countDefaults (l.filter q) ≤ countDefaults l := by
  rw [countDefaults, countDefaults, List.filter_filter]
  exact length_filter_le_of_imp _ _ l
    (fun a _ hpq => ((Bool.and_eq_true _ _).mp hpq).1)

theorem countDefaults_zero_iff (l : List Device) :
    countDefaults l = 0 ↔ ∀ d ∈ l, d.is_default = false := by
  simp [countDefaults, List.length_eq_zero, List.filter_eq_nil_iff]

theorem countDefaults_pos_of_mem {l : List Device} {r : Device} (hr : r ∈ l)
    (hd : r.is_default = true) : 1 ≤ countDefaults l := by
  have hmem : r ∈ l.filter (fun d => d.is_default) := List.mem_filter.mpr ⟨hr, hd⟩
  exact List.length_pos.mpr (List.ne_nil_of_mem hmem)

theorem countDefaults_cons_le (a : Device) (t : List Device) :
    countDefaults t ≤ countDefaults (a :: t) := by
  rw [countDefaults, countDefaults, List.filter_cons]
  by_cases h : (a.is_default : Bool) = true
  · rw [if_pos h]; exact Nat.le_succ _
  · rw [if_neg h]

theorem unique_default (l : List Device) :
    countDefaults l ≤ 1 → ∀ r ∈ l, r.is_default = true →
      ∀ d ∈ l, d ≠ r → d.is_default = false := by
  induction l with
  | nil => intro _ r hr; exact absurd hr (List.not_mem_nil r)
  | cons a t ih =>
    intro hc r hr hrd d hd hne
    rcases List.mem_cons.mp hr with hra | hrt
    · subst hra
      rcases List.mem_cons.mp hd with hda | hdt
      · exact absurd hda hne
      · have h1 : countDefaults (r :: t) = countDefaults t + 1 := by
          rw [countDefaults, countDefaults, List.filter_cons, if_pos hrd]
          simp
        have h0 : countDefaults t = 0 := by omega
        exact (countDefaults_zero_iff t).mp h0 d hdt
    · rcases List.mem_cons.mp hd with hda | hdt
      · subst hda
        cases hb : d.is_default
        · rfl
        · exfalso
          have h1 : 1 ≤ countDefaults t := countDefaults_pos_of_mem hrt hrd
          have h2 : countDefaults (d :: t) = countDefaults t + 1 := by
            rw [countDefaults, countDefaults, List.filter_cons, if_pos hb]
            simp
          omega
      · exact ih (Nat.le_trans (countDefaults_cons_le a t) hc) r hrt hrd d hdt hne

theorem length_filter_id_le_one (l : List Device) (i : Nat) :
    (l.map Device.id).Nodup → (l.filter (fun d => d.id == i)).length ≤ 1 := by
  induction l with
  | nil => intro _; exact Nat.zero_le 1
  | cons a t ih =>
    intro h
    rw [List.map_cons, List.nodup_cons] at h
    rw [List.filter_cons]
    by_cases hc : (a.id == i) = true
    · rw [if_pos hc]
      have hz : t.filter (fun d => d.id == i) = [] := by
        rw [List.filter_eq_nil_iff]
        intro d hd hdi
        apply h.1
        exact List.mem_map.mpr ⟨d, hd, by
          have h1 : d.id = i := by simpa using hdi
          have h2 : a.id = i := by simpa using hc
          rw [h1, h2]⟩
      rw [hz]
      exact Nat.le_refl 1
    · rw [if_neg hc]
      exact ih h.2

theorem length_filter_id_eq_one (l : List Device) (e : Device) :
    (l.map Device.id).Nodup → e ∈ l →
      (l.filter (fun d => d.id == e.id)).length = 1 := by
  induction l with
  | nil => intro _ he; exact absurd he (List.not_mem_nil e)
  | cons a t ih =>
    intro h he
    rw [List.map_cons, List.nodup_cons] at h
    rw [List.filter_cons]
    rcases List.mem_cons.mp he with hea | het
    · subst hea
      rw [if_pos (by simp)]
      have hz : t.filter (fun d => d.id == e.id) = [] := by
        rw [List.filter_eq_nil_iff]
        intro d hd hdi
        exact h.1 (List.mem_map.mpr ⟨d, hd, by simpa using hdi⟩)
      rw [hz]
      rfl
    · have hne : ¬ (a.id == e.id) = true := by
        intro hq
        refine h.1 (List.mem_map.mpr ⟨e, het, ?_⟩)
        have : a.id = e.id := by simpa using hq
        exact this.symm
      rw [if_neg hne]
      exact ih h.2 het

theorem find?_id_eq_self (l : List Device) (d : Device) :
    (l.map Device.id).Nodup → d ∈ l →
      l.find? (fun x => x.id == d.id) = some d := by
  induction l with
  | nil => intro _ h; exact absurd h (List.not_mem_nil d)
  | cons a t ih =>
    intro h hd
    rw [List.map_cons, List.nodup_cons] at h
    rcases List.mem_cons.mp hd with hda | hdt
    · subst hda
      exact List.find?_cons_of_pos _ (by simp)
    · have hne : (a.id == d.id) = false := by
        refine Bool.eq_false_iff.mpr (fun hq => ?_)
        refine h.1 (List.mem_map.mpr ⟨d, hdt, ?_⟩)
        have : a.id = d.id := by simpa using hq
        exact this.symm
      rw [List.find?_cons, hne]
      exact ih h.2 hdt

theorem countDefaults_delete_promote (st : Store) (device_id : Nat) (row e : Device)
    (hids : DistinctIds st) (hc : AtMostOneDefault st)
    (hrow : st.devices.find? (fun d => d.id == device_id) = some row)
    (hdef : row.is_default = true)
    (he : st.devices.find? (fun d => d.id != device_id) = some e) :
    countDefaults (delete_device st device_id).devices = 1 := by
  have hrowmem := List.mem_of_find?_eq_some hrow
  have hrowid : row.id = device_id := by simpa using List.find?_some hrow
  have hemem := List.mem_of_find?_eq_some he
  have heid : e.id ≠ device_id := by simpa using List.find?_some he
  have hdev : (delete_device st device_id).devices =
      (st.devices.map (fun d =>
          if d.id == e.id then { d with is_default := true } else d)).filter
        (fun d => d.id != device_id) := by
    unfold delete_device
    rw [hrow, he]
    simp [hdef]
  rw [hdev]
  rw [countDefaults, List.filter_filter, List.filter_map, List.length_map]
  rw [List.filter_congr (q := fun d => d.id == e.id) ?_]
  · exact length_filter_id_eq_one st.devices e hids hemem
  · intro d hd
    simp only [Function.comp_apply]
    by_cases hde : d.id = e.id
    · rw [if_pos (by simpa using hde)]
      simp [hde, heid]
    · rw [if_neg (by simpa using hde)]
      by_cases hdd : d.id = device_id
      · simp only [hdd, bne_self_eq_false, Bool.false_and]
        have : (device_id == e.id) = false := by
          refine Bool.eq_false_iff.mpr (fun hq => ?_)
          have h2 : device_id = e.id := by simpa using hq
          exact heid h2.symm
        rw [hdd] at hde
        simp [this]
      · have hdr : d ≠ row := fun hcontra => hdd (hcontra ▸ hrowid)
        have hdf : d.is_default = false :=
          unique_default st.devices hc row hrowmem hdef d hd hdr
        simp [hde, hdd, hdf]

/-- C9: with `id` the primary key, every device mutation preserves the
at-most-one-default invariant; deleting the default while other devices
remain promotes exactly one remaining device, and deleting the last
device leaves no devices (hence no default). -/
theorem C9_default_device_invariant (st : Store) :
    (∀ (al ip un pw : Str) (pid : Nat) (isd : Bool),
       AtMostOneDefault st →
       AtMostOneDefault (add_device st al ip un pw pid isd).2) ∧
    (∀ (dev_id : Nat) (al ip un pw : Str) (pid : Nat) (isd : Bool),
       DistinctIds st → AtMostOneDefault st →
       AtMostOneDefault (update_device st dev_id al ip un pw pid isd)) ∧
    (∀ dev_id : Nat, DistinctIds st → AtMostOneDefault st →
       AtMostOneDefault (delete_device st dev_id)) ∧
    (∀ d ∈ st.devices, DistinctIds st → AtMostOneDefault st → d.is_default = true →
       (∃ e ∈ st.devices, e.id ≠ d.id) →
       countDefaults (delete_device st d.id).devices = 1) ∧
    (∀ d : Device, st.devices = [d] → (delete_device st d.id).devices = []) := by
  refine ⟨?_, ?_, ?_, ?_, ?_⟩
  · intro al ip un pw pid isd hc
    cases isd
    · have hdev : (add_device st al ip un pw pid false).2.devices =
          st.devices ++
            [({ id := st.next_device_id, «alias» := al, ip := ip, username := un,
                password := pw, port_id := pid, is_default := false } : Device)] := by
        simp [add_device]
      show countDefaults (add_device st al ip un pw pid false).2.devices ≤ 1
      rw [hdev, countDefaults_append]
      have hz : countDefaults
          [({ id := st.next_device_id, «alias» := al, ip := ip, username := un,
              password := pw, port_id := pid, is_default := false } : Device)] = 0 := by
        simp [countDefaults]
      omega
    · have hdev : (add_device st al ip un pw pid true).2.devices =
          st.devices.map (fun d => { d with is_default := false }) ++
            [({ id := st.next_device_id, «alias» := al, ip := ip, username := un,
                password := pw, port_id := pid, is_default := true } : Device)] := by
        simp [add_device]
      show countDefaults (add_device st al ip un pw pid true).2.devices ≤ 1
      rw [hdev, countDefaults_append]
      have h0 : countDefaults (st.devices.map (fun d => { d with is_default := false })) = 0 := by
        rw [countDefaults_map _ _ (fun _ => false) (fun d _ => rfl)]
        simp
      have h1 : countDefaults
          [({ id := st.next_device_id, «alias» := al, ip := ip, username := un,
              password := pw, port_id := pid, is_default := true } : Device)] = 1 := by
        simp [countDefaults]
      omega
  · intro dev_id al ip un pw pid isd hids hc
    cases isd
    · have hdev : (update_device st dev_id al ip un pw pid false).devices =
          st.devices.map (fun d => if d.id == dev_id then
            { d with «alias» := al, ip := ip, username := un, password := pw,
                     port_id := pid, is_default := false } else d) := by
        simp [update_device]
      show countDefaults (update_device st dev_id al ip un pw pid false).devices ≤ 1
      rw [hdev]
      rw [countDefaults_map _ _
        (fun d => if d.id == dev_id then false else d.is_default) ?_]
      · refine Nat.le_trans (length_filter_le_of_imp _ _ st.devices ?_) hc
        intro a _ hpa
        by_cases hq : (a.id == dev_id) = true
        · rw [if_pos hq] at hpa
          exact absurd hpa (by simp)
        · rwa [if_neg hq] at hpa
      · intro d _
        by_cases hq : (d.id == dev_id) = true
        · simp [hq]
        · simp [hq]
    · have hdev : (update_device st dev_id al ip un pw pid true).devices =
          (st.devices.map (fun d => if d.id == dev_id then d
              else { d with is_default := false })).map
            (fun d => if d.id == dev_id then
              { d with «alias» := al, ip := ip, username := un, password := pw,
                       port_id := pid, is_default := true } else d) := by
        simp [update_device]
      show countDefaults (update_device st dev_id al ip un pw pid true).devices ≤ 1
      rw [hdev, List.map_map]
      rw [countDefaults_map _ _ (fun d => d.id == dev_id) ?_]
      · exact length_filter_id_le_one st.devices dev_id hids
      · intro d _
        simp only [Function.comp_apply]
        by_cases hq : (d.id == dev_id) = true
        · rw [if_pos hq, if_pos hq]
          simp [hq]
        · rw [if_neg hq, if_neg hq]
          simp [hq]
  · intro dev_id hids hc
    cases hrow : st.devices.find? (fun d => d.id == dev_id) with
    | none =>
      have hdev : (delete_device st dev_id).devices =
          st.devices.filter (fun d => d.id != dev_id) := by
        unfold delete_device
        rw [hrow]
      show countDefaults (delete_device st dev_id).devices ≤ 1
      rw [hdev]
      exact Nat.le_trans (countDefaults_filter_le _ _) hc
    | some row =>
      by_cases hdef : row.is_default = true
      · cases he : st.devices.find? (fun d => d.id != dev_id) with
        | none =>
          have hdev : (delete_device st dev_id).devices =
              st.devices.filter (fun d => d.id != dev_id) := by
            unfold delete_device
            rw [hrow, he]
            simp [hdef]
          show countDefaults (delete_device st dev_id).devices ≤ 1
          rw [hdev]
          exact Nat.le_trans (countDefaults_filter_le _ _) hc
        | some e =>
          have h1 := countDefaults_delete_promote st dev_id row e hids hc hrow hdef he
          show countDefaults (delete_device st dev_id).devices ≤ 1
          omega
      · have hdev : (delete_device st dev_id).devices =
            st.devices.filter (fun d => d.id != dev_id) := by
          unfold delete_device
          rw [hrow]
          simp [hdef]
        show countDefaults (delete_device st dev_id).devices ≤ 1
        rw [hdev]
        exact Nat.le_trans (countDefaults_filter_le _ _) hc
  · intro d hd hids hc hdef hex
    have hrow : st.devices.find? (fun x => x.id == d.id) = some d :=
      find?_id_eq_self st.devices d hids hd
    rcases hex with ⟨e, he, hne⟩
    have hsome : (st.devices.find? (fun x => x.id != d.id)).isSome :=
      List.find?_isSome.mpr ⟨e, he, by simpa using hne⟩
    rcases Option.isSome_iff_exists.mp hsome with ⟨e', he'⟩
    exact countDefaults_delete_promote st d.id d e' hids hc hrow hdef he'
  · intro d hl
    unfold delete_device
    rw [hl]
    by_cases hdef : d.is_default = true
    · simp [List.find?_cons, hdef]
    · simp [List.find?_cons, hdef]

/-- C9 witness: on the two-device store (device 1 default, primary keys
distinct) each mutation keeps at most one default; deleting default
device 1 promotes exactly one remaining device; deleting the only
device of the one-device store leaves none. -/
theorem C9_default_device_invariant_witness :
    (AtMostOneDefault storeTwo ∧
       AtMostOneDefault (add_device storeTwo "C".data "ip3".data "u".data "p".data 3 true).2) ∧
    (DistinctIds storeTwo ∧
       AtMostOneDefault (update_device storeTwo 2 "B".data "ip2".data "u".data "p".data 2 true)) ∧
    AtMostOneDefault (delete_device storeTwo 1) ∧
    (devA ∈ storeTwo.devices ∧ devA.is_default = true ∧
       (∃ e ∈ storeTwo.devices, e.id ≠ devA.id) ∧
       countDefaults (delete_device storeTwo devA.id).devices = 1) ∧
    (storeMon.devices = [devA] ∧ (delete_device storeMon devA.id).devices = []) :=
  ⟨⟨by decide,
    (C9_default_device_invariant storeTwo).1 "C".data "ip3".data "u".data "p".data 3 true
      (by decide)⟩,
   ⟨by decide,
    (C9_default_device_invariant storeTwo).2.1 2 "B".data "ip2".data "u".data "p".data 2 true
      (by decide) (by decide)⟩,
   (C9_default_device_invariant storeTwo).2.2.1 1 (by decide) (by decide),
   ⟨by decide, by decide, ⟨devB, by decide, by decide⟩,
    (C9_default_device_invariant storeTwo).2.2.2.1 devA (by decide) (by decide) (by decide)
      (by decide) ⟨devB, by decide, by decide⟩⟩,
   ⟨by decide, (C9_default_device_invariant storeMon).2.2.2.2 devA (by decide)⟩⟩

/-! Order lemmas for the lexicographic comparison and the sort used by
`get_next_schedule_start`. -/

theorem strLt_irrefl : ∀ a : Str, strLt a a = false
  | [] => rfl
  | c :: cs => by simp [strLt, strLt_irrefl cs]

theorem strLt_trans : ∀ {a b c : Str}, strLt a b = true → strLt b c = true →
    strLt a c = true
  | [], [], _, hab, _ => by simp [strLt] at hab
  | [], _ :: _, [], _, hbc => by simp [strLt] at hbc
  | [], _ :: _, _ :: _, _, _ => rfl
  | _ :: _, [], _, hab, _ => by simp [strLt] at hab
  | _ :: _, _ :: _, [], _, hbc => by simp [strLt] at hbc
  | a₀ :: as, b₀ :: bs, c₀ :: cs, hab, hbc => by
    simp only [strLt] at hab hbc ⊢
    by_cases h1 : a₀ < b₀
    · by_cases h2 : b₀ < c₀
      · rw [if_pos (lt_trans h1 h2)]
      · rw [if_neg h2] at hbc
        by_cases h3 : c₀ < b₀
        · rw [if_pos h3] at hbc
          exact absurd hbc (by simp)
        · have he : b₀ = c₀ := le_antisymm (le_of_not_lt h3) (le_of_not_lt h2)
          subst he
          rw [if_pos h1]
    · rw [if_neg h1] at hab
      by_cases h4 : b₀ < a₀
      · rw [if_pos h4] at hab
        exact absurd hab (by simp)
      · rw [if_neg h4] at hab
        have he : a₀ = b₀ := le_antisymm (le_of_not_lt h4) (le_of_not_lt h1)
        subst he
        by_cases h2 : a₀ < c₀
        · rw [if_pos h2]
        · rw [if_neg h2] at hbc ⊢
          by_cases h3 : c₀ < a₀
          · rw [if_pos h3] at hbc
            exact absurd hbc (by simp)
          · rw [if_neg h3] at hbc
            rw [if_neg h3]
            exact strLt_trans hab hbc

theorem strLt_asymm {a b : Str} (h : strLt a b = true) : strLt b a = false := by
  refine Bool.eq_false_iff.mpr (fun hcon => ?_)
  have hself := strLt_trans h hcon
  rw [strLt_irrefl] at hself
  exact absurd hself (by simp)

theorem mem_sortInsert (s x : Schedule) : ∀ (l : List Schedule),
    x ∈ sortInsert s l ↔ x = s ∨ x ∈ l
  | [] => by simp [sortInsert]
  | t :: rest => by
    simp only [sortInsert]
    by_cases h : strLt s.start_time t.start_time = true
    · rw [if_pos h]
      simp only [List.mem_cons]
    · rw [if_neg h]
      simp only [List.mem_cons, mem_sortInsert s x rest]
      tauto

theorem pairwise_sortInsert (s : Schedule) : ∀ (l : List Schedule),
    l.Pairwise leStart → (sortInsert s l).Pairwise leStart
  | [], _ => by simp [sortInsert, leStart]
  | t :: rest, hp => by
    rcases List.pairwise_cons.mp hp with ⟨ht, hrest⟩
    simp only [sortInsert]
    by_cases h : strLt s.start_time t.start_time = true
    · rw [if_pos h]
      refine List.pairwise_cons.mpr ⟨?_, hp⟩
      intro y hy
      rcases List.mem_cons.mp hy with hyt | hyr
      · subst hyt
        exact strLt_asymm h
      · refine Bool.eq_false_iff.mpr (fun hcon => ?_)
        exact Bool.eq_false_iff.mp (ht y hyr) (strLt_trans hcon h)
    · rw [if_neg h]
      refine List.pairwise_cons.mpr ⟨?_, pairwise_sortInsert s rest hrest⟩
      intro y hy
      rcases (mem_sortInsert s y rest).mp hy with hys | hyr
      · subst hys
        exact Bool.eq_false_iff.mpr h
      · exact ht y hyr

theorem sortByStart_aux_mem (x : Schedule) : ∀ (l acc : List Schedule),
    x ∈ l.foldl (fun acc s => sortInsert s acc) acc ↔ x ∈ l ∨ x ∈ acc
  | [], acc => by simp
  | s :: rest, acc => by
    simp only [List.foldl_cons]
    rw [sortByStart_aux_mem x rest (sortInsert s acc)]
    rw [mem_sortInsert]
    simp only [List.mem_cons]
    tauto

theorem sortByStart_aux_pairwise : ∀ (l acc : List Schedule),
    acc.Pairwise leStart → (l.foldl (fun acc s => sortInsert s acc) acc).Pairwise leStart
  | [], _, h => h
  | s :: rest, acc, h => by
    simp only [List.foldl_cons]
    exact sortByStart_aux_pairwise rest _ (pairwise_sortInsert s acc h)

theorem mem_sortByStart {x : Schedule} {l : List Schedule} :
    x ∈ sortByStart l ↔ x ∈ l := by
  unfold sortByStart
  rw [sortByStart_aux_mem]
  simp

theorem pairwise_sortByStart (l : List Schedule) : (sortByStart l).Pairwise leStart :=
  sortByStart_aux_pairwise l [] List.Pairwise.nil

/-! Lemmas on the inner skip loop and the offset scan of
`get_next_schedule_start`. -/

theorem firstQualifying_none (o : Nat) (t : Str) : ∀ (l : List Schedule),
    firstQualifying o t l = none →
      ∀ s ∈ l, (o == 0 && strLe s.start_time t) = true
  | [], _, s, hs => absurd hs (List.not_mem_nil s)
  | s₀ :: rest, h, s, hs => by
    simp only [firstQualifying] at h
    by_cases hc : (o == 0 && strLe s₀.start_time t) = true
    · rw [if_pos hc] at h
      rcases List.mem_cons.mp hs with h1 | h2
      · subst h1; exact hc
      · exact firstQualifying_none o t rest h s h2
    · rw [if_neg hc] at h
      exact absurd h (by simp)

theorem firstQualifying_some (o : Nat) (t : Str) : ∀ (l : List Schedule) (s : Schedule),
    l.Pairwise leStart → firstQualifying o t l = some s →
    s ∈ l ∧ (o == 0 && strLe s.start_time t) = false ∧
      ∀ s' ∈ l, (o == 0 && strLe s'.start_time t) = false →
        strLe s.start_time s'.start_time = true
  | [], s, _, h => by simp [firstQualifying] at h
  | s₀ :: rest, s, hp, h => by
    rcases List.pairwise_cons.mp hp with ⟨h0, hrest⟩
    simp only [firstQualifying] at h
    by_cases hc : (o == 0 && strLe s₀.start_time t) = true
    · rw [if_pos hc] at h
      rcases firstQualifying_some o t rest s hrest h with ⟨hmem, hns, hmin⟩
      refine ⟨List.mem_cons_of_mem s₀ hmem, hns, ?_⟩
      intro s' hs' hns'
      rcases List.mem_cons.mp hs' with h1 | h2
      · subst h1
        exact absurd hc (by rw [hns']; simp)
      · exact hmin s' h2 hns'
    · rw [if_neg hc] at h
      have hss : s₀ = s := by simpa using h
      subst hss
      refine ⟨List.mem_cons_self _ _, Bool.eq_false_iff.mpr hc, ?_⟩
      intro s' hs' _
      rcases List.mem_cons.mp hs' with h1 | h2
      · subst h1
        simp [strLe, strLt_irrefl]
      · simp [strLe, h0 s' h2]

theorem scanOffsets_succ (schedules : List Schedule) (now day_offset fuel : Nat) :
    scanOffsets schedules now day_offset (fuel + 1) =
      match tryOffset schedules now day_offset with
      | some t => some t
      | none => scanOffsets schedules now (day_offset + 1) fuel := by
  cases hfq : firstQualifying day_offset (fmtHM (now % 1440))
      (sortByStart (schedules.filter
        (fun s => s.day_of_week == (now / 1440 % 7 + day_offset) % 7))) with
  | none =>
    simp only [scanOffsets, tryOffset]
    rw [hfq]
  | some s =>
    simp only [scanOffsets, tryOffset]
    rw [hfq]

theorem scanOffsets_some (schedules : List Schedule) (now : Nat) :
    ∀ (fuel o t : Nat), scanOffsets schedules now o fuel = some t →
      ∃ k, k < fuel ∧ tryOffset schedules now (o + k) = some t ∧
        ∀ j, j < k → tryOffset schedules now (o + j) = none := by
  intro fuel
  induction fuel with
  | zero => intro o t h; exact absurd h (by simp [scanOffsets])
  | succ fuel ih =>
    intro o t h
    rw [scanOffsets_succ] at h
    cases htry : tryOffset schedules now o with
    | some u =>
      rw [htry] at h
      have hu : u = t := by simpa using h
      refine ⟨0, Nat.zero_lt_succ _, ?_, fun j hj => absurd hj (Nat.not_lt_zero j)⟩
      rw [Nat.add_zero, htry, hu]
    | none =>
      rw [htry] at h
      rcases ih (o + 1) t h with ⟨k, hk, hsome, hnone⟩
      refine ⟨k + 1, Nat.succ_lt_succ hk, ?_, ?_⟩
      · rw [show o + (k + 1) = o + 1 + k by omega]
        exact hsome
      · intro j hj
        cases j with
        | zero => rw [Nat.add_zero]; exact htry
        | succ j' =>
          rw [show o + (j' + 1) = o + 1 + j' by omega]
          exact hnone j' (by omega)

theorem tryOffset_none (schedules : List Schedule) (now o : Nat)
    (h : tryOffset schedules now o = none) :
    ∀ s, ¬ QualifiesAt schedules now o s := by
  intro s hq
  rcases hq with ⟨hmem, hday, hfut⟩
  simp only [tryOffset] at h
  cases hfq : firstQualifying o (fmtHM (now % 1440))
      (sortByStart (schedules.filter
        (fun x => x.day_of_week == (now / 1440 % 7 + o) % 7))) with
  | some s' =>
    rw [hfq] at h
    exact absurd h (by simp)
  | none =>
    have hs : s ∈ sortByStart (schedules.filter
        (fun x => x.day_of_week == (now / 1440 % 7 + o) % 7)) :=
      mem_sortByStart.mpr (List.mem_filter.mpr ⟨hmem, by simp [hday]⟩)
    have hskip := firstQualifying_none o _ _ hfq s hs
    simp only [Bool.and_eq_true] at hskip
    obtain ⟨ho, hle⟩ := hskip
    have ho' : o = 0 := by simpa using ho
    have hlt := hfut ho'
    simp only [strLe, hlt] at hle
    exact absurd hle (by simp)

theorem tryOffset_some (schedules : List Schedule) (now o t : Nat)
    (h : tryOffset schedules now o = some t) :
    ∃ s, QualifiesAt schedules now o s ∧
      (∀ s', QualifiesAt schedules now o s' →
         strLe s.start_time s'.start_time = true) ∧
      t = (now / 1440 + o) * 1440 + (parseHM s.start_time).1 * 60 +
            (parseHM s.start_time).2 := by
  simp only [tryOffset] at h
  cases hfq : firstQualifying o (fmtHM (now % 1440))
      (sortByStart (schedules.filter
        (fun x => x.day_of_week == (now / 1440 % 7 + o) % 7))) with
  | none =>
    rw [hfq] at h
    exact absurd h (by simp)
  | some s =>
    rw [hfq] at h
    have hform : (now / 1440 + o) * 1440 + (parseHM s.start_time).1 * 60 +
        (parseHM s.start_time).2 = t := by simpa using h
    rcases firstQualifying_some o _ _ s (pairwise_sortByStart _) hfq with ⟨hmem, hns, hmin⟩
    have hmem' := List.mem_filter.mp (mem_sortByStart.mp hmem)
    refine ⟨s, ⟨hmem'.1, by simpa using hmem'.2, ?_⟩, ?_, hform.symm⟩
    · intro ho
      subst ho
      simp only [beq_self_eq_true, Bool.true_and] at hns
      simp only [strLe] at hns
      simpa using hns
    · intro s' hq'
      rcases hq' with ⟨hm', hday', hfut'⟩
      apply hmin
      · exact mem_sortByStart.mpr (List.mem_filter.mpr ⟨hm', by simp [hday']⟩)
      · by_cases ho : o = 0
        · subst ho
          have hlt := hfut' rfl
          simp [strLe, hlt]
        · simp [ho]

/-- C4: the next-start lookahead scans day offsets 0 to 7: any result
comes from the first offset with a qualifying schedule — where for
offset 0 only starts lexicographically after the current time qualify —
and is the lexicographically smallest such start on that day, returned
as an absolute timestamp at that date and parsed time; a device with no
enabled schedules yields none; and the two spec examples hold: queried
Monday 10:00 the Monday 09:00 to 17:00 schedule rolls to the following
Monday 09:00 (minute 10620, day offset 7), and queried Sunday 23:00 it
is found the next morning (the same minute 10620, day offset 1). -/
theorem C4_next_schedule_start (st : Store) (device_id now : Nat) :
    (get_schedules st device_id = [] →
       get_next_schedule_start st device_id now = none) ∧
    (∀ t, get_next_schedule_start st device_id now = some t →
       ∃ o, o < 8 ∧
         (∀ o', o' < o → ∀ s, ¬ QualifiesAt (get_schedules st device_id) now o' s) ∧
         ∃ s, QualifiesAt (get_schedules st device_id) now o s ∧
           (∀ s', QualifiesAt (get_schedules st device_id) now o s' →
              strLe s.start_time s'.start_time = true) ∧
           t = (now / 1440 + o) * 1440 + (parseHM s.start_time).1 * 60 +
                 (parseHM s.start_time).2) ∧
    (600 / 1440 % 7 = 0 ∧ fmtHM (600 % 1440) = "10:00".data ∧
       get_next_schedule_start storeMon 1 600 = some 10620 ∧
       10620 = (600 / 1440 + 7) * 1440 + 9 * 60 + 0) ∧
    (10020 / 1440 % 7 = 6 ∧ fmtHM (10020 % 1440) = "23:00".data ∧
       get_next_schedule_start storeMon 1 10020 = some 10620 ∧
       10620 = (10020 / 1440 + 1) * 1440 + 9 * 60 + 0) := by
  refine ⟨?_, ?_, by decide, by decide⟩
  · intro h
    simp [get_next_schedule_start, h]
  · intro t ht
    simp only [get_next_schedule_start] at ht
    cases hE : (get_schedules st device_id).isEmpty
    · rw [hE] at ht
      simp only [Bool.false_eq_true, if_false] at ht
      rcases scanOffsets_some (get_schedules st device_id) now 8 0 t ht with
        ⟨k, hk, hsome, hnone⟩
      rw [Nat.zero_add] at hsome
      refine ⟨k, hk, ?_, ?_⟩
      · intro o' ho' s
        have hn := hnone o' ho'
        rw [Nat.zero_add] at hn
        exact tryOffset_none _ _ _ hn s
      · exact tryOffset_some _ _ _ _ hsome
    · rw [hE] at ht
      simp at ht

/-- C4 witness: the schedule-free store yields none, and at Monday
10:00 the theorem certifies result 10620 as coming from a minimal
qualifying schedule at the first offset where one qualifies. -/
theorem C4_next_schedule_start_witness :
    (get_schedules storeNoSched 1 = [] ∧
       get_next_schedule_start storeNoSched 1 600 = none) ∧
    (get_next_schedule_start storeMon 1 600 = some 10620 ∧
       ∃ o, o < 8 ∧
         (∀ o', o' < o → ∀ s, ¬ QualifiesAt (get_schedules storeMon 1) 600 o' s) ∧
         ∃ s, QualifiesAt (get_schedules storeMon 1) 600 o s ∧
           (∀ s', QualifiesAt (get_schedules storeMon 1) 600 o s' →
              strLe s.start_time s'.start_time = true) ∧
           10620 = (600 / 1440 + o) * 1440 + (parseHM s.start_time).1 * 60 +
                 (parseHM s.start_time).2) :=
  ⟨⟨by decide, (C4_next_schedule_start storeNoSched 1 600).1 (by decide)⟩,
   ⟨by decide, (C4_next_schedule_start storeMon 1 600).2.1 10620 (by decide)⟩⟩
